import Mathlib

/-!
Shallow embedding of the DebtFlow ledger and milestone engine
(src/src/app/page.tsx). Money values are rationals; the JavaScript
helpers `Math.round` and `Number.toFixed(2)` are modelled as exact
rounding on rationals (half away from zero for `toFixed`, half up for
`Math.round`, matching the 2-decimal rounding policy of the code).
-/

namespace DebtFlow

/-- The sport tag of a bet (source type `Sport`). -/
inductive Sport
  | Football
  | Cricket
  | Tennis
  | Other
deriving DecidableEq, Repr

/-- Settlement status of a bet (source type `BetStatus`). -/
inductive BetStatus
  | Pending
  | Won
  | Lost
deriving DecidableEq, Repr

/-- A wagered event (source type `Bet`). Timestamps are abstract strings. -/
structure Bet where
  id : String
  date : String
  description : String
  sport : Sport
  stake : ℚ
  oddsDecimal : ℚ
  status : BetStatus
  returnOverride : Option ℚ
  settledAt : Option String
  createdAt : String
  updatedAt : String
deriving DecidableEq, Repr

/-- Funding stream of a payment (source type `PaymentSource`). -/
inductive PaymentSource
  | Betting
  | Trading
  | Savings
deriving DecidableEq, Repr

/-- A contribution toward the debt pool (source type `Payment`). -/
structure Payment where
  id : String
  date : String
  amount : ℚ
  source : PaymentSource
  note : Option String
  cardId : Option String
deriving DecidableEq, Repr

/-- A debt account (source type `DebtCard`). -/
structure DebtCard where
  id : String
  name : String
  balance : ℚ
deriving DecidableEq, Repr

/-- Process-wide configuration (source type `Settings`). -/
structure Settings where
  debtTotal : ℚ
  startingBankroll : ℚ
  targetAmount : ℚ
  bankPercentOnTarget : ℚ
  autoBankEnabled : Bool
  autoBankCardId : Option String
  runStartStake : ℚ
  runTargetStake : ℚ
deriving DecidableEq, Repr

/-- The source constant `DEFAULTS`. -/
def DEFAULTS : Settings :=
  { debtTotal := 0
    startingBankroll := 5
    targetAmount := 100
    bankPercentOnTarget := 50
    autoBankEnabled := true
    autoBankCardId := none
    runStartStake := 5
    runTargetStake := 100 }

/-- JavaScript `Math.round`: round half toward positive infinity. -/
def jround (x : ℚ) : ℤ := ⌊x + 1/2⌋

/-- JavaScript `+(x).toFixed(2)`: round to 2 decimal places, half away
from zero, as an exact rational. -/
def toFixed2 (x : ℚ) : ℚ :=
  if 0 ≤ x then ((⌊x * 100 + 1/2⌋ : ℤ) : ℚ) / 100
  else -(((⌊-x * 100 + 1/2⌋ : ℤ) : ℚ) / 100)

/-- A rational is a 2-decimal money value when it is an integer number of
hundredths. -/
def Is2dp (x : ℚ) : Prop := ∃ k : ℤ, x = (k : ℚ) / 100

/-- Source `calcDefaultReturn`: default return from stake and decimal
odds; `null` (here `none`) for a pending bet. -/
def calcDefaultReturn (stake oddsDecimal : ℚ) : BetStatus → Option ℚ
  | .Won => some (toFixed2 (stake * oddsDecimal))
  | .Lost => some 0
  | .Pending => none

/-- Source `effectiveReturn`: a non-null override wins unconditionally,
otherwise the default computed return. -/
def effectiveReturn (b : Bet) : Option ℚ :=
  match b.returnOverride with
  | some v => some v
  | none => calcDefaultReturn b.stake b.oddsDecimal b.status

/-- Aggregate stats produced by `computeStats`. -/
structure Stats where
  settledCount : ℕ
  wonCount : ℕ
  hitRate : ℤ
  totalStaked : ℚ
  totalReturns : ℚ
  profit : ℚ
  progress : ℤ
deriving DecidableEq, Repr

/-- Source `computeStats`: fold the bet list into aggregate metrics. -/
def computeStats (bets : List Bet) (targetAmount : ℚ) : Stats :=
  let settled := bets.filter (fun b => b.status ≠ .Pending)
  let won := settled.filter (fun b => b.status = .Won)
  let totalStaked := settled.foldl (fun s b => s + b.stake) 0
  let totalReturns := settled.foldl (fun s b => s + ((effectiveReturn b).getD 0)) 0
  let profit := toFixed2 (totalReturns - totalStaked)
  let hitRate : ℤ := if settled.length ≠ 0 then jround ((won.length : ℚ) / (settled.length : ℚ) * 100) else 0
  let rawProgress : ℤ := if 0 < targetAmount then jround (profit / targetAmount * 100) else 0
  { settledCount := settled.length
    wonCount := won.length
    hitRate := hitRate
    totalStaked := totalStaked
    totalReturns := totalReturns
    profit := profit
    progress := min 100 (max 0 rawProgress) }

/-- Source `sumPayments`: sum of payment amounts, optionally filtered to
one source, rounded to 2 decimals. -/
def sumPayments (pays : List Payment) (source : Option PaymentSource) : ℚ :=
  toFixed2 (pays.foldl
    (fun s p => s + (match source with
      | some src => if p.source = src then p.amount else 0
      | none => p.amount)) 0)

/-- Source `sumPaymentsToCard`: sum of amounts earmarked to one card. -/
def sumPaymentsToCard (pays : List Payment) (cardId : String) : ℚ :=
  toFixed2 (pays.foldl (fun s p => s + (if p.cardId = some cardId then p.amount else 0)) 0)

/-- Source `totalDebt`: sum of card balances, or the legacy fallback
total when no cards exist. -/
def totalDebt (cards : List DebtCard) (fallbackDebtTotal : ℚ) : ℚ :=
  if cards.isEmpty then toFixed2 fallbackDebtTotal
  else toFixed2 (cards.foldl (fun s c => s + c.balance) 0)

/-- Source `remainingDebtFromCards`: per-card remaining, clamped at 0,
summed over all cards. -/
def remainingDebtFromCards (cards : List DebtCard) (payments : List Payment) : ℚ :=
  toFixed2 (cards.foldl (fun s c => s + max 0 (c.balance - sumPaymentsToCard payments c.id)) 0)

/-- Derived value `paidTotal` in `App`: every payment counted. -/
def paidTotal (payments : List Payment) : ℚ := sumPayments payments none

/-- Derived value `remainingTotal` in `App`: card-based remaining when
cards exist, else the legacy total minus all payments, floored at 0. -/
def remainingTotal (cards : List DebtCard) (payments : List Payment) (debtTotalSetting : ℚ) : ℚ :=
  if cards.isEmpty then max 0 (toFixed2 (debtTotalSetting - paidTotal payments))
  else remainingDebtFromCards cards payments

/-- Derived value `paidShown` in `App`: global paid display figure. -/
def paidShown (cards : List DebtCard) (payments : List Payment) (debtTotalSetting : ℚ) : ℚ :=
  toFixed2 (totalDebt cards debtTotalSetting - remainingTotal cards payments debtTotalSetting)

/-- JavaScript `a || b` on an optional string: the empty string and null
both fall through to `b`. -/
def jsOr (a b : Option String) : Option String :=
  match a with
  | some s => if s = "" then b else some s
  | none => b

/-- The auto-bank effect (source `App`, `useEffect` at lines 241-255) as
a pure evaluation: given the configuration, the card list, the available
betting profit and the milestone counter, produce the optional new
payment and the new counter. -/
def autoBankEvaluate (s : Settings) (cards : List DebtCard) (availableProfitBetting : ℚ)
    (bankedMilestones : ℤ) (date newId : String) : Option Payment × ℤ :=
  if s.autoBankEnabled = false ∨ s.targetAmount ≤ 0 ∨ s.bankPercentOnTarget ≤ 0 then
    (none, bankedMilestones)
  else
    let target := s.targetAmount
    let multiples : ℤ := ⌊availableProfitBetting / target⌋
    if bankedMilestones < multiples then
      let perMilestone := toFixed2 (target * (s.bankPercentOnTarget / 100))
      let count := multiples - bankedMilestones
      let totalToBank := toFixed2 (perMilestone * (count : ℚ))
      if 0 < totalToBank then
        (some { id := newId, date := date, amount := totalToBank, source := .Betting,
                note := some "Auto bank on target",
                cardId := jsOr s.autoBankCardId ((cards.head?).map DebtCard.id) },
         multiples)
      else (none, bankedMilestones)
    else (none, bankedMilestones)

/-- The payments list and milestone counter, the state touched by the
banking helpers. -/
structure BankState where
  payments : List Payment
  bankedMilestones : ℤ
deriving DecidableEq, Repr

/-- Source `bankPayment`: prepend one payment unless the amount is
non-positive. Never touches the milestone counter. -/
def bankPayment (amount : ℚ) (source : PaymentSource) (note : Option String)
    (cardId : Option String) (date newId : String) (st : BankState) : BankState :=
  if amount ≤ 0 then st
  else { st with payments :=
          { id := newId, date := date, amount := toFixed2 amount, source := source,
            note := note, cardId := cardId } :: st.payments }

/-- Source `bankFromBettingNow`: one-shot manual transfer of the
per-milestone amount, guarded by available profit. -/
def bankFromBettingNow (s : Settings) (availableProfitBetting : ℚ) (cardId : Option String)
    (date newId : String) (st : BankState) : BankState :=
  let perMilestone := toFixed2 (s.targetAmount * (s.bankPercentOnTarget / 100))
  let targetCard := match cardId with
    | some c => some c
    | none => s.autoBankCardId
  if perMilestone ≤ 0 then st
  else if availableProfitBetting < perMilestone then st
  else bankPayment perMilestone .Betting (some "Manual bank") targetCard date newId st

/-- The add-bet form (source `form` state, already validated non-null). -/
structure BetForm where
  date : String
  description : String
  sport : Sport
  stake : ℚ
  oddsDecimal : ℚ
  status : BetStatus
  returnOverride : Option ℚ
deriving DecidableEq, Repr

/-- The bet record constructed by source `addBet`: a zero, null or
undefined form override is stored as null; `settledAt` is the creation
time exactly when the status is not Pending. -/
def addBetRecord (f : BetForm) (now newId : String) : Bet :=
  { id := newId
    date := f.date
    description := f.description
    sport := f.sport
    stake := f.stake
    oddsDecimal := f.oddsDecimal
    status := f.status
    returnOverride := match f.returnOverride with
      | none => none
      | some v => if v = 0 then none else some v
    settledAt := if f.status ≠ .Pending then some now else none
    createdAt := now
    updatedAt := now }

/-- Source `addBet`: prepend the new record to the bet list. -/
def addBet (f : BetForm) (now newId : String) (bets : List Bet) : List Bet :=
  addBetRecord f now newId :: bets

/-- A partial bet update (source `Partial<Bet>` patch): `none` means the
field is absent from the patch. -/
structure BetPatch where
  date : Option String := none
  description : Option String := none
  sport : Option Sport := none
  stake : Option ℚ := none
  oddsDecimal : Option ℚ := none
  status : Option BetStatus := none
  returnOverride : Option (Option ℚ) := none
deriving DecidableEq, Repr

/-- The merge performed by source `updateBet` on the matching bet:
spread the patch over the bet, stamp `updatedAt`, and set `settledAt`
to now exactly when the patch carries a non-Pending status, otherwise
keep the previous `settledAt`. -/
def patchBet (b : Bet) (p : BetPatch) (now : String) : Bet :=
  { id := b.id
    date := p.date.getD b.date
    description := p.description.getD b.description
    sport := p.sport.getD b.sport
    stake := p.stake.getD b.stake
    oddsDecimal := p.oddsDecimal.getD b.oddsDecimal
    status := p.status.getD b.status
    returnOverride := p.returnOverride.getD b.returnOverride
    settledAt := match p.status with
      | some st => if st ≠ .Pending then some now else b.settledAt
      | none => b.settledAt
    createdAt := b.createdAt
    updatedAt := now }

/-- Source `updateBet`: patch the bet with the given id. -/
def updateBet (bets : List Bet) (id : String) (p : BetPatch) (now : String) : List Bet :=
  bets.map (fun b => if b.id = id then patchBet b p now else b)

/-- A concrete bet builder used by concrete instances below. -/
def mkBet (stake oddsDecimal : ℚ) (status : BetStatus) (returnOverride : Option ℚ) : Bet :=
  { id := "b1", date := "2026-01-01", description := "demo", sport := .Football,
    stake := stake, oddsDecimal := oddsDecimal, status := status,
    returnOverride := returnOverride, settledAt := none,
    createdAt := "t0", updatedAt := "t0" }

/-- A configuration with a one-penny target and a one-percent banking
share: the per-milestone amount rounds to zero at 2 decimals. -/
def tinyTargetSettings : Settings :=
  { DEFAULTS with targetAmount := 1/100, bankPercentOnTarget := 1 }

/-- A concrete debt card with starting balance 100. -/
def cardA : DebtCard := { id := "c1", name := "Card", balance := 100 }

/-- A concrete unearmarked payment of 50. -/
def loosePayment : Payment :=
  { id := "p9", date := "2026-01-01", amount := 50, source := .Savings,
    note := none, cardId := none }

/-- A concrete earmarked-to-nothing payment of 200 used in the legacy
mode instance. -/
def pay200 : Payment :=
  { id := "p2", date := "2026-01-02", amount := 200, source := .Savings,
    note := none, cardId := none }

/-- A concrete bet that has been settled as Won. -/
def wonBet : Bet := { mkBet 10 2 .Won none with settledAt := some "2026-01-01T00:00:00Z" }

/-- A concrete add-bet form carrying a zero return override. -/
def zeroOverrideForm : BetForm :=
  { date := "2026-01-01", description := "demo", sport := .Football,
    stake := 10, oddsDecimal := 2, status := .Won, returnOverride := some 0 }

/-! ## Helper lemmas about the rounding model -/

theorem floor_intCast_add_half (k : ℤ) : ⌊(k : ℚ) + 1/2⌋ = k := by
  rw [Int.floor_int_add]
  norm_num

theorem toFixed2_intCast_div (k : ℤ) : toFixed2 ((k : ℚ) / 100) = (k : ℚ) / 100 := by
  unfold toFixed2
  have h100 : (100 : ℚ) ≠ 0 := by norm_num
  rcases le_or_lt 0 ((k : ℚ) / 100) with h | h
  · rw [if_pos h, div_mul_cancel₀ _ h100, floor_intCast_add_half]
  · rw [if_neg (not_le.mpr h),
      show -((k : ℚ) / 100) = ((-k : ℤ) : ℚ) / 100 by push_cast; ring,
      div_mul_cancel₀ _ h100, floor_intCast_add_half]
    push_cast
    ring

theorem Is2dp.toFixed2_eq {x : ℚ} (h : Is2dp x) : toFixed2 x = x := by
  obtain ⟨k, rfl⟩ := h
  exact toFixed2_intCast_div k

theorem toFixed2_is2dp (x : ℚ) : Is2dp (toFixed2 x) := by
  unfold toFixed2
  rcases le_or_lt 0 x with h | h
  · exact ⟨⌊x * 100 + 1/2⌋, by rw [if_pos h]⟩
  · exact ⟨-⌊-x * 100 + 1/2⌋, by rw [if_neg (not_le.mpr h)]; push_cast; ring⟩

theorem toFixed2_idem (x : ℚ) : toFixed2 (toFixed2 x) = toFixed2 x :=
  (toFixed2_is2dp x).toFixed2_eq

theorem Is2dp.add {x y : ℚ} (hx : Is2dp x) (hy : Is2dp y) : Is2dp (x + y) := by
  obtain ⟨a, rfl⟩ := hx
  obtain ⟨b, rfl⟩ := hy
  exact ⟨a + b, by push_cast; ring⟩

theorem Is2dp.sub {x y : ℚ} (hx : Is2dp x) (hy : Is2dp y) : Is2dp (x - y) := by
  obtain ⟨a, rfl⟩ := hx
  obtain ⟨b, rfl⟩ := hy
  exact ⟨a - b, by push_cast; ring⟩

theorem is2dp_zero : Is2dp 0 := ⟨0, by norm_num⟩

theorem is2dp_list_sum {α : Type} (f : α → ℚ) (l : List α)
    (h : ∀ a ∈ l, Is2dp (f a)) : Is2dp ((l.map f).sum) := by
  induction l with
  | nil => simpa using is2dp_zero
  | cons a l ih =>
    rw [List.map_cons, List.sum_cons]
    exact (h a (List.mem_cons_self a l)).add (ih fun b hb => h b (List.mem_cons_of_mem a hb))

theorem foldl_add_map_sum {α : Type} (f : α → ℚ) (l : List α) :
    ∀ s : ℚ, l.foldl (fun s x => s + f x) s = s + (l.map f).sum := by
  induction l with
  | nil => intro s; simp
  | cons a l ih =>
    intro s
    rw [List.foldl_cons, ih, List.map_cons, List.sum_cons]
    ring

/-! ## Claim theorems -/

/-- C1: for every configuration, available profit and counter with
counter at least the floor of availableProfit over targetProfit, the
auto-bank milestone evaluation is a no-op: it emits no payment and
leaves the counter unchanged. -/
theorem autoBank_noop_of_counter_ge (s : Settings) (cards : List DebtCard)
    (ap : ℚ) (c : ℤ) (date newId : String)
    (h : ⌊ap / s.targetAmount⌋ ≤ c) :
    autoBankEvaluate s cards ap c date newId = (none, c) := by
  unfold autoBankEvaluate
  split
  · rfl
  · rw [if_neg (not_lt.mpr h)]

/-- Witness for C1 at a concrete input: counter 2 already covers an
available profit of 250 against the default target of 100. -/
theorem autoBank_noop_of_counter_ge_witness :
    ⌊(250 : ℚ) / DEFAULTS.targetAmount⌋ ≤ 2 ∧
    autoBankEvaluate DEFAULTS [] 250 2 "2026-10-11" "p1" = (none, 2) :=
  ⟨by norm_num [DEFAULTS],
   autoBank_noop_of_counter_ge DEFAULTS [] 250 2 "2026-10-11" "p1" (by norm_num [DEFAULTS])⟩

/-- C2: the milestone counter is monotonically non-decreasing: every
auto-bank evaluation either leaves the counter unchanged or raises it
to the strictly larger multiple count, and the banking helpers never
touch it. -/
theorem autoBank_counter_monotone (s : Settings) (cards : List DebtCard) (ap : ℚ) (c : ℤ)
    (date newId : String) (amount : ℚ) (src : PaymentSource) (note : Option String)
    (cid : Option String) (st : BankState) :
    ((autoBankEvaluate s cards ap c date newId).2 = c ∨
      (c < (autoBankEvaluate s cards ap c date newId).2 ∧
        (autoBankEvaluate s cards ap c date newId).2 = ⌊ap / s.targetAmount⌋)) ∧
    (bankPayment amount src note cid date newId st).bankedMilestones = st.bankedMilestones ∧
    (bankFromBettingNow s ap cid date newId st).bankedMilestones = st.bankedMilestones := by
  refine ⟨?_, ?_, ?_⟩
  · simp only [autoBankEvaluate]
    split
    · exact Or.inl rfl
    · split
      · split
        · exact Or.inr ⟨by assumption, rfl⟩
        · exact Or.inl rfl
      · exact Or.inl rfl
  · unfold bankPayment
    split <;> rfl
  · simp only [bankFromBettingNow, bankPayment]
    split
    · rfl
    · split
      · rfl
      · split <;> rfl

/-- C3 counterexample: with auto-bank enabled, target 1/100 and bank
percent 1, an available profit of 1/100 crosses one new multiple, yet
the per-milestone amount rounds to zero at 2 decimals, so the code emits
no contribution and leaves the counter at 0, while the claim predicts
one contribution and a counter of 1. -/
theorem autoBank_fires_counterexample :
    tinyTargetSettings.autoBankEnabled = true ∧
    0 < tinyTargetSettings.targetAmount ∧
    0 < tinyTargetSettings.bankPercentOnTarget ∧
    (0 : ℤ) < ⌊(1/100 : ℚ) / tinyTargetSettings.targetAmount⌋ ∧
    autoBankEvaluate tinyTargetSettings [] (1/100) 0 "2026-10-11" "p1" = (none, 0) := by
  refine ⟨rfl, by norm_num [tinyTargetSettings, DEFAULTS],
    by norm_num [tinyTargetSettings, DEFAULTS],
    by norm_num [tinyTargetSettings, DEFAULTS], ?_⟩
  norm_num [autoBankEvaluate, tinyTargetSettings, DEFAULTS, toFixed2]

/-- C3 (amended): with auto-bank enabled, a positive target, a positive
bank percent, a crossed-multiple count exceeding the counter, and a
positive rounded total to bank, the evaluation emits exactly one
Betting-sourced contribution of the doubly rounded amount and sets the
counter to the new multiple count. -/
theorem autoBank_fires (s : Settings) (cards : List DebtCard) (ap : ℚ) (c : ℤ)
    (date newId : String)
    (hen : s.autoBankEnabled = true) (ht : 0 < s.targetAmount)
    (hp : 0 < s.bankPercentOnTarget) (hc : c < ⌊ap / s.targetAmount⌋)
    (hpos : 0 < toFixed2 (toFixed2 (s.targetAmount * (s.bankPercentOnTarget / 100)) *
      ((⌊ap / s.targetAmount⌋ - c : ℤ) : ℚ))) :
    autoBankEvaluate s cards ap c date newId =
      (some { id := newId, date := date,
              amount := toFixed2 (toFixed2 (s.targetAmount * (s.bankPercentOnTarget / 100)) *
                ((⌊ap / s.targetAmount⌋ - c : ℤ) : ℚ)),
              source := .Betting, note := some "Auto bank on target",
              cardId := jsOr s.autoBankCardId ((cards.head?).map DebtCard.id) },
       ⌊ap / s.targetAmount⌋) := by
  simp only [autoBankEvaluate]
  rw [if_neg, if_pos hc, if_pos hpos]
  simp only [hen, Bool.true_eq_false, false_or, not_or, not_le]
  exact ⟨ht, hp⟩

/-- Witness for C3 (amended) at the concrete instance of the claim:
target 100, bank percent 50, counter 0, available profit 250 yields one
contribution of 100 and a new counter of 2. -/
theorem autoBank_fires_witness :
    DEFAULTS.autoBankEnabled = true ∧ 0 < DEFAULTS.targetAmount ∧
    0 < DEFAULTS.bankPercentOnTarget ∧ (0 : ℤ) < ⌊(250 : ℚ) / DEFAULTS.targetAmount⌋ ∧
    autoBankEvaluate DEFAULTS [] 250 0 "2026-10-11" "p1" =
      (some { id := "p1", date := "2026-10-11", amount := 100, source := .Betting,
              note := some "Auto bank on target", cardId := none }, 2) := by
  have h := autoBank_fires DEFAULTS [] 250 0 "2026-10-11" "p1" rfl
    (by norm_num [DEFAULTS]) (by norm_num [DEFAULTS]) (by norm_num [DEFAULTS])
    (by norm_num [DEFAULTS, toFixed2])
  refine ⟨rfl, by norm_num [DEFAULTS], by norm_num [DEFAULTS], by norm_num [DEFAULTS], ?_⟩
  rw [h]
  norm_num [DEFAULTS, toFixed2, jsOr]

/-- C4: the return resolver yields the override whenever one is set,
regardless of status; otherwise stake times odds rounded to 2 decimals
when Won, 0 when Lost, and null when Pending. -/
theorem effectiveReturn_spec (b : Bet) :
    (∀ v, b.returnOverride = some v → effectiveReturn b = some v) ∧
    (b.returnOverride = none → b.status = BetStatus.Won →
      effectiveReturn b = some (toFixed2 (b.stake * b.oddsDecimal))) ∧
    (b.returnOverride = none → b.status = BetStatus.Lost → effectiveReturn b = some 0) ∧
    (b.returnOverride = none → b.status = BetStatus.Pending → effectiveReturn b = none) := by
  refine ⟨fun v hv => ?_, fun h hs => ?_, fun h hs => ?_, fun h hs => ?_⟩ <;>
    simp [effectiveReturn, calcDefaultReturn, *]

/-- Witness for C4 covering all four cases at concrete bets, the
override one with status Lost to show the override wins regardless. -/
theorem effectiveReturn_spec_witness :
    ((mkBet 10 2 .Lost (some 7)).returnOverride = some 7 ∧
      effectiveReturn (mkBet 10 2 .Lost (some 7)) = some 7) ∧
    effectiveReturn (mkBet 10 2 .Won none) = some (toFixed2 (10 * 2)) ∧
    effectiveReturn (mkBet 10 3 .Lost none) = some 0 ∧
    effectiveReturn (mkBet 5 2 .Pending none) = none :=
  ⟨⟨rfl, (effectiveReturn_spec (mkBet 10 2 .Lost (some 7))).1 7 rfl⟩,
   (effectiveReturn_spec (mkBet 10 2 .Won none)).2.1 rfl rfl,
   (effectiveReturn_spec (mkBet 10 3 .Lost none)).2.2.1 rfl rfl,
   (effectiveReturn_spec (mkBet 5 2 .Pending none)).2.2.2 rfl rfl⟩

/-- C5: the aggregated progress equals the rounded profit-over-target
percentage clamped to [0, 100]; it is 0 for a non-positive target, 100
once profit reaches the target, 0 on a net loss, and always within
[0, 100]. -/
theorem computeStats_progress_spec (bets : List Bet) (t : ℚ) :
    (computeStats bets t).progress =
      (if 0 < t then min 100 (max 0 (jround ((computeStats bets t).profit / t * 100))) else 0) ∧
    (t ≤ 0 → (computeStats bets t).progress = 0) ∧
    (0 < t → t ≤ (computeStats bets t).profit → (computeStats bets t).progress = 100) ∧
    ((computeStats bets t).profit < 0 → (computeStats bets t).progress = 0) ∧
    (0 ≤ (computeStats bets t).progress ∧ (computeStats bets t).progress ≤ 100) := by
  have hpr : (computeStats bets t).progress =
      min 100 (max 0 (if 0 < t then jround ((computeStats bets t).profit / t * 100) else 0)) := rfl
  rcases le_or_lt t 0 with h0 | h0
  · have hif : ¬ (0 < t) := not_lt.mpr h0
    rw [hpr]
    simp only [if_neg hif]
    refine ⟨by omega, fun _ => by omega, fun hlt => absurd hlt hif, fun _ => by omega,
      by omega, by omega⟩
  · rw [hpr]
    simp only [if_pos h0]
    set r : ℤ := jround ((computeStats bets t).profit / t * 100) with hr
    refine ⟨trivial, fun hle => absurd h0 (not_lt.mpr hle), fun _ hge => ?_, fun hneg => ?_,
      by omega, by omega⟩
    · have h1 : (1 : ℚ) ≤ (computeStats bets t).profit / t := (one_le_div h0).mpr hge
      have h100 : (100 : ℚ) ≤ (computeStats bets t).profit / t * 100 := by nlinarith
      have : (100 : ℤ) ≤ r := by
        rw [hr]
        unfold jround
        exact Int.le_floor.mpr (by push_cast; linarith)
      omega
    · have hq : (computeStats bets t).profit / t < 0 := div_neg_of_neg_of_pos hneg h0
      have hx : (computeStats bets t).profit / t * 100 < 0 := by nlinarith
      have : r < 1 := by
        rw [hr]
        unfold jround
        exact Int.floor_lt.mpr (by push_cast; linarith)
      omega

/-- Witness for C5: a non-positive target, an over-target win and a net
loss, each at a concrete bet list. -/
theorem computeStats_progress_spec_witness :
    ((0 : ℚ) ≤ 0 ∧ (computeStats [mkBet 10 2 .Won none] 0).progress = 0) ∧
    ((0 : ℚ) < 100 ∧ (100 : ℚ) ≤ (computeStats [mkBet 10 16 .Won none] 100).profit ∧
      (computeStats [mkBet 10 16 .Won none] 100).progress = 100) ∧
    ((computeStats [mkBet 10 2 .Lost none] 100).profit < 0 ∧
      (computeStats [mkBet 10 2 .Lost none] 100).progress = 0) := by
  have hbig : (computeStats [mkBet 10 16 .Won none] 100).profit = 150 := by
    simp [computeStats, mkBet, effectiveReturn, calcDefaultReturn, toFixed2]
    norm_num
  have hloss : (computeStats [mkBet 10 2 .Lost none] 100).profit = -10 := by
    simp [computeStats, mkBet, effectiveReturn, calcDefaultReturn, toFixed2]
    norm_num
  refine ⟨⟨le_refl 0, (computeStats_progress_spec [mkBet 10 2 .Won none] 0).2.1 (le_refl 0)⟩,
    ⟨by norm_num, ?_, ?_⟩, ?_, ?_⟩
  · rw [hbig]; norm_num
  · exact (computeStats_progress_spec [mkBet 10 16 .Won none] 100).2.2.1 (by norm_num)
      (by rw [hbig]; norm_num)
  · rw [hloss]; norm_num
  · exact (computeStats_progress_spec [mkBet 10 2 .Lost none] 100).2.2.2.1
      (by rw [hloss]; norm_num)

/-- C6: with no accounts, the total debt equals the legacy total and
the remaining debt equals the legacy total minus the sum of all
contributions, floored at 0, for 2-decimal money inputs. -/
theorem legacy_mode_spec (legacy : ℚ) (payments : List Payment)
    (h1 : Is2dp legacy) (h2 : ∀ p ∈ payments, Is2dp p.amount) :
    totalDebt [] legacy = legacy ∧
    remainingTotal [] payments legacy =
      max 0 (legacy - (payments.map Payment.amount).sum) := by
  have hsum : Is2dp ((payments.map Payment.amount).sum) :=
    is2dp_list_sum Payment.amount payments h2
  have hpaid : paidTotal payments = (payments.map Payment.amount).sum := by
    show toFixed2 (payments.foldl (fun s p => s + p.amount) 0) = _
    rw [foldl_add_map_sum Payment.amount payments 0, zero_add]
    exact hsum.toFixed2_eq
  constructor
  · show toFixed2 legacy = legacy
    exact h1.toFixed2_eq
  · show max 0 (toFixed2 (legacy - paidTotal payments)) = _
    rw [hpaid, (h1.sub hsum).toFixed2_eq]

/-- Witness for C6: legacy total 800 with a single contribution of 200
leaves 600 remaining. -/
theorem legacy_mode_spec_witness :
    Is2dp 800 ∧ (∀ p ∈ [pay200], Is2dp p.amount) ∧
    totalDebt [] 800 = 800 ∧
    remainingTotal [] [pay200] 800 = max 0 (800 - ([pay200].map Payment.amount).sum) := by
  have h1 : Is2dp (800 : ℚ) := ⟨80000, by norm_num⟩
  have h2 : ∀ p ∈ [pay200], Is2dp p.amount := by
    intro p hp
    simp only [List.mem_singleton] at hp
    exact ⟨20000, by rw [hp]; norm_num [pay200]⟩
  exact ⟨h1, h2, (legacy_mode_spec 800 [pay200] h1 h2).1, (legacy_mode_spec 800 [pay200] h1 h2).2⟩

/-- A payment with no card reference contributes nothing to any
per-card sum. -/
theorem sumPaymentsToCard_cons_none (p : Payment) (pays : List Payment) (cid : String)
    (hp : p.cardId = none) :
    sumPaymentsToCard (p :: pays) cid = sumPaymentsToCard pays cid := by
  unfold sumPaymentsToCard
  rw [List.foldl_cons, hp]
  simp

/-- C7 counterexample: with one account of balance 100 and no prior
payments, adding an unearmarked payment of 50 leaves the displayed paid
figure at 0, instead of increasing it by 50 as the claim states. -/
theorem unearmarked_paid_counterexample :
    loosePayment.cardId = none ∧ loosePayment.amount = 50 ∧
    paidShown [cardA] [loosePayment] 0 = 0 ∧ paidShown [cardA] [] 0 = 0 ∧
    ¬ (paidShown [cardA] [loosePayment] 0 =
        paidShown [cardA] [] 0 + loosePayment.amount) := by
  have hs : sumPaymentsToCard [loosePayment] "c1" = 0 := by
    simp [sumPaymentsToCard, loosePayment, cardA]
    norm_num [toFixed2]
  have h1 : paidShown [cardA] [loosePayment] 0 = 0 := by
    simp [paidShown, totalDebt, remainingTotal, remainingDebtFromCards, hs, cardA]
    norm_num [toFixed2]
  have h0 : paidShown [cardA] [] 0 = 0 := by
    simp [paidShown, totalDebt, remainingTotal, remainingDebtFromCards, sumPaymentsToCard, cardA]
    norm_num [toFixed2]
  refine ⟨rfl, rfl, h1, h0, ?_⟩
  rw [h1, h0]
  norm_num [loosePayment]

/-- C7 (amended): for a non-empty account list, an unearmarked
contribution reduces no individual remaining balance, leaves the
aggregated remaining debt unchanged, and leaves the displayed paid
figure unchanged. -/
theorem unearmarked_payment_frame (cards : List DebtCard) (payments : List Payment)
    (p : Payment) (dt : ℚ) (hne : cards ≠ []) (hp : p.cardId = none) :
    (∀ c ∈ cards, max 0 (c.balance - sumPaymentsToCard (p :: payments) c.id) =
      max 0 (c.balance - sumPaymentsToCard payments c.id)) ∧
    remainingDebtFromCards cards (p :: payments) = remainingDebtFromCards cards payments ∧
    paidShown cards (p :: payments) dt = paidShown cards payments dt := by
  have hcard : ∀ cid, sumPaymentsToCard (p :: payments) cid = sumPaymentsToCard payments cid :=
    fun cid => sumPaymentsToCard_cons_none p payments cid hp
  have hrem : remainingDebtFromCards cards (p :: payments) =
      remainingDebtFromCards cards payments := by
    unfold remainingDebtFromCards
    congr 1
    exact List.foldl_ext _ _ 0 (fun s c _ => by rw [hcard])
  have hempty : cards.isEmpty = false := by
    cases cards with
    | nil => exact absurd rfl hne
    | cons a l => rfl
  have hremTotal : remainingTotal cards (p :: payments) dt =
      remainingTotal cards payments dt := by
    unfold remainingTotal
    rw [hempty]
    simpa using hrem
  refine ⟨fun c _ => by rw [hcard], hrem, ?_⟩
  unfold paidShown
  rw [hremTotal]

/-- Witness for C7 (amended) at one account of balance 100 and an
unearmarked payment of 50. -/
theorem unearmarked_payment_frame_witness :
    ([cardA] ≠ []) ∧ loosePayment.cardId = none ∧
    remainingDebtFromCards [cardA] [loosePayment] = remainingDebtFromCards [cardA] [] ∧
    paidShown [cardA] [loosePayment] 0 = paidShown [cardA] [] 0 := by
  have h := unearmarked_payment_frame [cardA] [] loosePayment 0 (by simp) rfl
  exact ⟨by simp, rfl, h.2.1, h.2.2⟩

/-- C8: manual banking emits exactly one payment of the per-milestone
amount precisely when that amount is positive and covered by the
available profit, and it never changes the milestone counter. -/
theorem bankNow_spec (s : Settings) (ap : ℚ) (cid : Option String)
    (date newId : String) (st : BankState) :
    (bankFromBettingNow s ap cid date newId st).bankedMilestones = st.bankedMilestones ∧
    (0 < toFixed2 (s.targetAmount * (s.bankPercentOnTarget / 100)) →
      toFixed2 (s.targetAmount * (s.bankPercentOnTarget / 100)) ≤ ap →
      (bankFromBettingNow s ap cid date newId st).payments =
        { id := newId, date := date,
          amount := toFixed2 (s.targetAmount * (s.bankPercentOnTarget / 100)),
          source := .Betting, note := some "Manual bank",
          cardId := match cid with | some c => some c | none => s.autoBankCardId }
          :: st.payments) ∧
    (toFixed2 (s.targetAmount * (s.bankPercentOnTarget / 100)) ≤ 0 ∨
        ap < toFixed2 (s.targetAmount * (s.bankPercentOnTarget / 100)) →
      (bankFromBettingNow s ap cid date newId st).payments = st.payments) := by
  simp only [bankFromBettingNow, bankPayment]
  refine ⟨?_, ?_, ?_⟩
  · split
    · rfl
    · split
      · rfl
      · split
        · rfl
        · rfl
  · intro hpos hle
    rw [if_neg (not_le.mpr hpos), if_neg (not_lt.mpr hle), if_neg (not_le.mpr hpos),
      toFixed2_idem]
  · intro h
    rcases h with h | h
    · rw [if_pos h]
    · rcases le_or_lt (toFixed2 (s.targetAmount * (s.bankPercentOnTarget / 100))) 0 with h0 | h0
      · rw [if_pos h0]
      · rw [if_neg (not_le.mpr h0), if_pos h]

/-- Witness for C8: with the default settings the per-milestone amount
is 50, available profit 60 covers it, one payment of 50 is emitted and
the counter stays 3. -/
theorem bankNow_spec_witness :
    (0 : ℚ) < toFixed2 (DEFAULTS.targetAmount * (DEFAULTS.bankPercentOnTarget / 100)) ∧
    toFixed2 (DEFAULTS.targetAmount * (DEFAULTS.bankPercentOnTarget / 100)) ≤ 60 ∧
    (bankFromBettingNow DEFAULTS 60 none "2026-10-11" "p1" ⟨[], 3⟩).bankedMilestones = 3 ∧
    (bankFromBettingNow DEFAULTS 60 none "2026-10-11" "p1" ⟨[], 3⟩).payments =
      [{ id := "p1", date := "2026-10-11",
         amount := toFixed2 (DEFAULTS.targetAmount * (DEFAULTS.bankPercentOnTarget / 100)),
         source := .Betting, note := some "Manual bank", cardId := none }] := by
  have h := bankNow_spec DEFAULTS 60 none "2026-10-11" "p1" ⟨[], 3⟩
  have hpos : (0 : ℚ) < toFixed2 (DEFAULTS.targetAmount * (DEFAULTS.bankPercentOnTarget / 100)) := by
    norm_num [DEFAULTS, toFixed2]
  have hle : toFixed2 (DEFAULTS.targetAmount * (DEFAULTS.bankPercentOnTarget / 100)) ≤ 60 := by
    norm_num [DEFAULTS, toFixed2]
  exact ⟨hpos, hle, h.1, (h.2.1 hpos hle).trans rfl⟩

/-- C9: evaluation of the update path at the failing input: a bet
settled as Won, patched back to Pending, stays Pending but keeps its
old settlement timestamp, so the invariant that a Pending bet has a
null `settledAt` is violated by the code. -/
theorem updateBet_pending_keeps_settledAt :
    wonBet.status = BetStatus.Won ∧
    wonBet.settledAt = some "2026-01-01T00:00:00Z" ∧
    updateBet [wonBet] "b1" { status := some .Pending } "2026-02-02T00:00:00Z" =
      [patchBet wonBet { status := some .Pending } "2026-02-02T00:00:00Z"] ∧
    (patchBet wonBet { status := some .Pending } "2026-02-02T00:00:00Z").status =
      BetStatus.Pending ∧
    (patchBet wonBet { status := some .Pending } "2026-02-02T00:00:00Z").settledAt =
      some "2026-01-01T00:00:00Z" ∧
    (patchBet wonBet { status := some .Pending } "2026-02-02T00:00:00Z").settledAt ≠ none := by
  refine ⟨rfl, rfl, ?_, rfl, rfl, ?_⟩
  · simp [updateBet, wonBet, mkBet]
  · simp [patchBet, wonBet, mkBet]

/-- C10: a zero (or absent) override in the add-bet form is stored as
null so the created bet falls back to the computed return, while the
resolver itself honours a stored zero override on an existing bet. -/
theorem addBet_zero_override_spec (f : BetForm) (now newId : String) :
    (f.returnOverride = some 0 ∨ f.returnOverride = none →
      (addBetRecord f now newId).returnOverride = none ∧
      effectiveReturn (addBetRecord f now newId) =
        calcDefaultReturn f.stake f.oddsDecimal f.status) ∧
    (∀ b : Bet, b.returnOverride = some 0 → effectiveReturn b = some 0) := by
  constructor
  · intro h
    have hov : (addBetRecord f now newId).returnOverride = none := by
      rcases h with h | h <;> simp [addBetRecord, h]
    refine ⟨hov, ?_⟩
    unfold effectiveReturn
    rw [hov]
    rfl
  · intro b hb
    simp [effectiveReturn, hb]

/-- Witness for C10: the concrete form with a zero override produces a
bet with a null override resolving to the computed return, while an
existing bet with a stored zero override resolves to 0. -/
theorem addBet_zero_override_witness :
    zeroOverrideForm.returnOverride = some 0 ∧
    (addBetRecord zeroOverrideForm "t0" "b2").returnOverride = none ∧
    effectiveReturn (addBetRecord zeroOverrideForm "t0" "b2") =
      calcDefaultReturn zeroOverrideForm.stake zeroOverrideForm.oddsDecimal
        zeroOverrideForm.status ∧
    (mkBet 10 2 .Won (some 0)).returnOverride = some 0 ∧
    effectiveReturn (mkBet 10 2 .Won (some 0)) = some 0 :=
  ⟨rfl, ((addBet_zero_override_spec zeroOverrideForm "t0" "b2").1 (Or.inl rfl)).1,
   ((addBet_zero_override_spec zeroOverrideForm "t0" "b2").1 (Or.inl rfl)).2, rfl,
   (addBet_zero_override_spec zeroOverrideForm "t0" "b2").2 (mkBet 10 2 .Won (some 0)) rfl⟩

end DebtFlow
